import Mathlib

/-!
# Verification of the MindShift whisper-service core

Shallow embedding of the request-processing core of the whisper-service
(`app/transcribe.py`, `app/cache.py`, `app/config.py`) together with proofs
about the hallucination classifier, the audio-conditioning validation step,
the VAD gating stage, and the caching layer.

Python floats are modelled as exact rationals (`ℚ`), byte strings as
`List ℕ`, and Python text operations (`str.lower`, `str.strip`,
`str.split`, `re.sub`) as executable functions over `List Char` restricted
to their ASCII behaviour, which is the fragment the embedded code relies on.
-/

/-! ## Python text primitives -/

/-- The whitespace characters recognised by Python's `str.strip`, `str.split`
and the regex class `\s` (ASCII fragment). -/
def isPySpace (c : Char) : Bool :=
  c == ' ' || c == '\t' || c == '\n' || c == '\r' || c == '\x0b' || c == '\x0c'

/-- ASCII case-lowering, modelling Python's `str.lower` on the ASCII fragment. -/
def pyLower (c : Char) : Char :=
  if 65 ≤ c.toNat ∧ c.toNat ≤ 90 then Char.ofNat (c.toNat + 32) else c

/-- A word character of the regex class `\w` (ASCII fragment):
letters, digits or underscore. -/
def isWordChar (c : Char) : Bool :=
  c.isAlpha || c.isDigit || c == '_'

/-- The characters kept by `re.sub(r"[^\w\s']", "", text)`:
word characters, whitespace, and apostrophes. -/
def keepChar (c : Char) : Bool :=
  isWordChar c || isPySpace c || c == '\''

/-- Remove leading Python whitespace. -/
def stripL (l : List Char) : List Char := l.dropWhile isPySpace

/-- Remove trailing Python whitespace. -/
def stripR (l : List Char) : List Char := (l.reverse.dropWhile isPySpace).reverse

/-- Python's `str.strip()`: drop leading and trailing whitespace. -/
def pyStrip (l : List Char) : List Char := stripR (stripL l)

/-- Worker for `collapseWs`; `prevSpace` records whether the previous
character belonged to a whitespace run already replaced by `' '`. -/
def collapseAux : Bool → List Char → List Char
  | _, [] => []
  | prevSpace, c :: rest =>
    if isPySpace c then
      if prevSpace then collapseAux true rest
      else ' ' :: collapseAux true rest
    else c :: collapseAux false rest

/-- `re.sub(r"\s+", " ", text)`: replace every maximal whitespace run by a
single space. -/
def collapseWs (l : List Char) : List Char := collapseAux false l

/-- `_normalize_text` from `app/transcribe.py` (lines 134-141) on character
lists: lowercase, strip, delete everything but word characters / whitespace /
apostrophes, collapse whitespace, strip again. -/
def normalizeList (l : List Char) : List Char :=
  pyStrip (collapseWs ((pyStrip (l.map pyLower)).filter keepChar))

/-- `_normalize_text` from `app/transcribe.py`, on strings. -/
def normalizeText (s : String) : String := ⟨normalizeList s.data⟩

/-- Worker for `pySplit`, accumulating the current word reversed. -/
def pySplitAux : List Char → List Char → List (List Char)
  | [], acc => if acc = [] then [] else [acc.reverse]
  | c :: rest, acc =>
    if isPySpace c then
      if acc = [] then pySplitAux rest []
      else acc.reverse :: pySplitAux rest []
    else pySplitAux rest (c :: acc)

/-- Python's `str.split()` with no argument: split on whitespace runs,
dropping empty words. -/
def pySplit (l : List Char) : List (List Char) := pySplitAux l []

/-- Does `p` occur as a contiguous substring of `l`?  Models Python's
`in` on strings. -/
def containsSub (p l : List Char) : Bool :=
  l.tails.any (fun t => p.isPrefixOf t)

/-! ## Decimal formatting

Model of Python's fixed-point format specifiers `{x:.2f}` / `{x:.3f}`
(value rounded to `d` places, fraction part zero-padded). -/

/-- Left-pad a string of digits with zeros up to width `d`. -/
def padZeros (d : ℕ) (s : String) : String :=
  ⟨List.replicate (d - s.length) '0' ++ s.data⟩

/-- Fixed-point rendering of a nonnegative rational with `d` decimal places. -/
def fmtFixedNN (q : ℚ) (d : ℕ) : String :=
  let n : ℕ := (Rat.floor (q * (10 ^ d : ℕ) + 1/2)).toNat
  toString (n / 10 ^ d) ++ "." ++ padZeros d (toString (n % 10 ^ d))

/-- Fixed-point rendering of a rational with `d` decimal places, modelling
Python's `{q:.df}` format. -/
def fmtFixed (q : ℚ) (d : ℕ) : String :=
  if q < 0 then "-" ++ fmtFixedNN (-q) d else fmtFixedNN q d

/-! ## Hallucination phrase data (`app/transcribe.py` lines 37-131) -/

/-- `HALLUCINATION_PHRASES`: exact-match hallucination phrases
(`app/transcribe.py` lines 37-112).  The Python set is modelled as a list;
only membership is ever used. -/
def HALLUCINATION_PHRASES : List String :=
  [ "thanks for watching",
    "thank you for watching",
    "thanks for watching and i'll see you in the next video",
    "thanks for watching and ill see you in the next video",
    "thank you for watching and i'll see you in the next video",
    "see you in the next video",
    "i'll see you in the next video",
    "ill see you in the next video",
    "see you in the next one",
    "i'll see you in the next one",
    "see you next time",
    "thanks for listening",
    "thank you for listening",
    "thank you very much",
    "thank you so much",
    "thank you",
    "thanks",
    "bye bye",
    "bye",
    "goodbye",
    "good bye",
    "please subscribe",
    "subscribe to my channel",
    "like and subscribe",
    "please like and subscribe",
    "don't forget to subscribe",
    "hit the subscribe button",
    "hit the like button",
    "leave a comment",
    "please leave a like",
    "hey guys",
    "hi everyone",
    "hello everyone",
    "what's up guys",
    "whats up guys",
    "welcome back",
    "welcome to my channel",
    "hey what's up",
    "you've been listening to",
    "this has been",
    "that's all for today",
    "thats all for today",
    "that's it for today",
    "until next time",
    "♪",
    "music",
    "music playing",
    "background music",
    "applause",
    "laughter",
    "...",
    "silence",
    "no speech detected",
    "ご視聴ありがとうございました",
    "字幕由",
    "字幕",
    "請不吝點讚",
    "訂閱",
    "谢谢观看",
    "감사합니다",
    "소리" ]

/-- `HALLUCINATION_SUBSTRINGS`: substring hallucination patterns
(`app/transcribe.py` lines 115-131). -/
def HALLUCINATION_SUBSTRINGS : List String :=
  [ "thanks for watching",
    "thank you for watching",
    "see you in the next video",
    "see you in the next one",
    "subscribe to my channel",
    "like and subscribe",
    "don't forget to subscribe",
    "hit the subscribe button",
    "welcome to my channel",
    "mozilafoundation",
    "mozilla foundation",
    "amara.org",
    "subtitles by",
    "captions by",
    "transcribed by" ]

/-! ## Segments and the hallucination classifier -/

/-- A Whisper segment as assembled by `transcribe_audio`
(`app/transcribe.py` lines 331-338).  Optional fields model keys that may
carry `None`; `filtered_as_hallucination` models the key that is absent
until the orchestrator adds it. -/
structure Segment where
  start : ℚ
  «end» : ℚ
  text : String
  confidence : Option ℚ
  no_speech_prob : Option ℚ
  avg_logprob : Option ℚ
  filtered_as_hallucination : Option Bool := none
deriving DecidableEq

/-- `is_hallucination` from `app/transcribe.py` (lines 144-225).
Returns `(is_hallucination, reason)`.  Numeric thresholds appear as exact
rationals (`6/10` for `0.6`, `3/2` for `1.5`). -/
def is_hallucination (transcript : String) (segments : List Segment)
    (audio_duration : ℚ) : Bool × String :=
  -- `if not transcript or not transcript.strip()`
  if transcript.data = [] ∨ pyStrip transcript.data = [] then (false, "")
  else
    let normalized : String := normalizeText transcript
    -- 1. Exact phrase match
    if normalized ∈ HALLUCINATION_PHRASES then
      (true, "exact_match: '" ++ normalized ++ "'")
    else
      -- 2. Substring match (first matching pattern wins)
      match HALLUCINATION_SUBSTRINGS.find? (fun p => containsSub p.data normalized.data) with
      | some pat => (true, "substring_match: '" ++ pat ++ "' in '" ++ normalized ++ "'")
      | none =>
        -- 3. Segment-level confidence analysis
        let avg_logprobs := segments.filterMap (fun s => s.avg_logprob)
        let no_speech_probs := segments.filterMap (fun s => s.no_speech_prob)
        let avg_no_speech := no_speech_probs.sum / no_speech_probs.length
        let avg_confidence := avg_logprobs.sum / avg_logprobs.length
        if segments ≠ [] ∧ no_speech_probs ≠ [] ∧ avg_no_speech > 6/10 then
          (true, "high_no_speech_prob: " ++ fmtFixed avg_no_speech 3)
        else if segments ≠ [] ∧ avg_logprobs ≠ [] ∧ audio_duration < 3 ∧
            avg_confidence < -1 then
          (true, "low_confidence_short_audio: logprob=" ++ fmtFixed avg_confidence 3
            ++ ", duration=" ++ fmtFixed audio_duration 2 ++ "s")
        else
          -- 4. Duration mismatch
          let word_count := (pySplit transcript.data).length
          if audio_duration < 3/2 ∧ word_count > 8 then
            (true, "duration_mismatch: " ++ toString word_count ++ " words in "
              ++ fmtFixed audio_duration 2 ++ "s audio")
          else
            -- 5. Compression ratio check
            let words := pySplit (transcript.data.map pyLower)
            let unique_words := words.dedup.length
            let compression_ratio : ℚ := (words.length : ℚ) / (unique_words : ℚ)
            if words.length > 3 ∧ compression_ratio > 3 then
              (true, "high_compression_ratio: " ++ fmtFixed compression_ratio 2
                ++ " (" ++ toString words.length ++ " words, "
                ++ toString unique_words ++ " unique)")
            else
              -- 6. Word repetition detection (repeated bigrams)
              if words.length ≥ 4 then
                let bigrams := (List.range (words.length - 1)).map
                  (fun i => words.getD i [] ++ ' ' :: words.getD (i+1) [])
                let max_repetitions :=
                  (bigrams.map (fun bg => bigrams.count bg)).foldr max 0
                if max_repetitions ≥ 3 then
                  let repeated_bigram :=
                    (bigrams.filter (fun bg => bigrams.count bg = max_repetitions)).headD []
                  (true, "repeated_phrase: '" ++ (⟨repeated_bigram⟩ : String)
                    ++ "' repeated " ++ toString max_repetitions ++ "x")
                else (false, "")
              else (false, "")

/-! ## Orchestrator result assembly (`transcribe_audio`, lines 348-379) -/

/-- The fields of the transcription result relevant to hallucination
filtering (`app/transcribe.py` lines 364-379).  `hallucination_reason`
is `none` when the key is absent from the Python dict. -/
structure TranscriptionResult where
  transcript : String
  segments : List Segment
  audio_duration : ℚ
  hallucination_filtered : Bool
  hallucination_reason : Option String
deriving DecidableEq

/-- The hallucination-filtering and result-assembly step of
`transcribe_audio` (`app/transcribe.py` lines 348-379): classify, and on
positive detection blank the transcript and mark every segment with
`filtered_as_hallucination = True`; attach `hallucination_reason` only when
filtered. -/
def buildResult (transcript : String) (segments : List Segment)
    (audio_duration : ℚ) : TranscriptionResult :=
  let hr := is_hallucination transcript segments audio_duration
  let hallucinated := hr.1
  let reason := hr.2
  { transcript := if hallucinated then "" else transcript
    segments :=
      if hallucinated then
        segments.map (fun s => { s with filtered_as_hallucination := some true })
      else segments
    audio_duration := audio_duration
    hallucination_filtered := hallucinated
    hallucination_reason := if hallucinated then some reason else none }

/-! ## Duration validation (`preprocess_audio`, lines 627-639) -/

/-- The final duration-validation step of `preprocess_audio`
(`app/transcribe.py` lines 627-639).  `minDur`/`maxDur` are
`config.MIN_AUDIO_DURATION`/`config.MAX_AUDIO_DURATION`; the duration is
`len(audio_data) / sample_rate`.  The Python code raises `ValueError` with
an f-string interpolating the measured duration (format `.2f`) and the
violated bound; both interpolations are modelled with `fmtFixed`. -/
def validateDuration (minDur maxDur : ℚ) (numSamples sampleRate : ℕ) :
    Except String Unit :=
  let duration : ℚ := (numSamples : ℚ) / (sampleRate : ℚ)
  if duration < minDur then
    Except.error ("Audio too short: " ++ fmtFixed duration 2 ++ "s < minimum "
      ++ fmtFixed minDur 2 ++ "s")
  else if duration > maxDur then
    Except.error ("Audio too long: " ++ fmtFixed duration 2 ++ "s > maximum "
      ++ fmtFixed maxDur 2 ++ "s")
  else Except.ok ()

/-- `config.MIN_AUDIO_DURATION` default (`app/config.py` line 25): 0.1 s. -/
def MIN_AUDIO_DURATION : ℚ := 1/10

/-- `config.MAX_AUDIO_DURATION` default (`app/config.py` line 24): 30 s. -/
def MAX_AUDIO_DURATION : ℚ := 30

/-! ## VAD pre-filtering stage (`preprocess_audio`, lines 556-600) -/

/-- 30 ms frame size at 16 kHz: `int(sample_rate * frame_duration_ms / 1000)`
(`app/transcribe.py` line 570) = 480 samples. -/
def FRAME_SIZE : ℕ := 16000 * 30 / 1000

/-- Python `range(0, stop, step)` for a (possibly truncated-to-zero) `stop`
and positive `step`. -/
def pyRangeStep (stop step : ℕ) : List ℕ :=
  (List.range ((stop + step - 1) / step)).map (· * step)

/-- The 30 ms frames examined by the VAD loop
(`app/transcribe.py` line 577): `audio_int16[i:i+frame_size]` for
`i in range(0, len(audio_int16) - frame_size, frame_size)`. -/
def vadFrames (audio : List ℤ) : List (List ℤ) :=
  (pyRangeStep (audio.length - FRAME_SIZE) FRAME_SIZE).map
    (fun i => (audio.drop i).take FRAME_SIZE)

/-- The VAD gating stage (`app/transcribe.py` lines 572-600), parameterised
by the external frame classifier `vad.is_speech`: keep the concatenation of
the voiced frames, or the original signal when no frame is voiced. -/
def vadFilter (is_speech : List ℤ → Bool) (audio : List ℤ) : List ℤ :=
  let voice_frames := (vadFrames audio).filter is_speech
  if voice_frames ≠ [] then voice_frames.flatten else audio

/-! ## SHA-256 (model of `hashlib.sha256(...).hexdigest()` used by
`RedisCache._compute_hash`, `app/cache.py` lines 61-72)

Bytes are `ℕ` values taken mod 256; words are `ℕ` values kept below `2^32`
by explicit reduction. -/

/-- 32-bit right rotation. -/
def rotr32 (n x : ℕ) : ℕ := ((x >>> n) ||| (x <<< (32 - n))) % 2 ^ 32

/-- SHA-256 Ch function. -/
def sha256ch (e f g : ℕ) : ℕ := (e &&& f) ^^^ ((2 ^ 32 - 1 - e % 2 ^ 32) &&& g)

/-- SHA-256 Maj function. -/
def sha256maj (a b c : ℕ) : ℕ := (a &&& b) ^^^ (a &&& c) ^^^ (b &&& c)

/-- SHA-256 big sigma 0. -/
def bsig0 (x : ℕ) : ℕ := rotr32 2 x ^^^ rotr32 13 x ^^^ rotr32 22 x

/-- SHA-256 big sigma 1. -/
def bsig1 (x : ℕ) : ℕ := rotr32 6 x ^^^ rotr32 11 x ^^^ rotr32 25 x

/-- SHA-256 small sigma 0. -/
def ssig0 (x : ℕ) : ℕ := rotr32 7 x ^^^ rotr32 18 x ^^^ (x >>> 3)

/-- SHA-256 small sigma 1. -/
def ssig1 (x : ℕ) : ℕ := rotr32 17 x ^^^ rotr32 19 x ^^^ (x >>> 10)

/-- The SHA-256 round constants. -/
def sha256K : List ℕ :=
  [1116352408, 1899447441, 3049323471, 3921009573, 961987163,
   1508970993, 2453635748, 2870763221, 3624381080, 310598401,
   607225278, 1426881987, 1925078388, 2162078206, 2614888103,
   3248222580, 3835390401, 4022224774, 264347078, 604807628,
   770255983, 1249150122, 1555081692, 1996064986, 2554220882,
   2821834349, 2952996808, 3210313671, 3336571891, 3584528711,
   113926993, 338241895, 666307205, 773529912, 1294757372,
   1396182291, 1695183700, 1986661051, 2177026350, 2456956037,
   2730485921, 2820302411, 3259730800, 3345764771, 3516065817,
   3600352804, 4094571909, 275423344, 430227734, 506948616,
   659060556, 883997877, 958139571, 1322822218, 1537002063,
   1747873779, 1955562222, 2024104815, 2227730452, 2361852424,
   2428436474, 2756734187, 3204031479, 3329325298]

/-- The SHA-256 working state: eight 32-bit words. -/
structure Sha256State where
  h0 : ℕ
  h1 : ℕ
  h2 : ℕ
  h3 : ℕ
  h4 : ℕ
  h5 : ℕ
  h6 : ℕ
  h7 : ℕ

/-- The SHA-256 initial hash value. -/
def sha256init : Sha256State :=
  ⟨1779033703, 3144134277, 1013904242, 2773480762,
   1359893119, 2600822924, 528734635, 1541459225⟩

/-- Append padding and the 64-bit big-endian message length, so the result's
length is a multiple of 64 bytes. -/
def sha256pad (msg : List ℕ) : List ℕ :=
  let L := msg.length * 8
  let z := (119 - msg.length % 64) % 64
  msg ++ 0x80 :: (List.replicate z 0 ++
    (List.range 8).map (fun i => (L >>> (8 * (7 - i))) % 256))

/-- Split a byte list into 64-byte chunks. -/
def chunks64 (l : List ℕ) : List (List ℕ) :=
  if l = [] then [] else l.take 64 :: chunks64 (l.drop 64)
termination_by l.length
decreasing_by
  simp only [List.length_drop]
  rename_i h
  have : l.length ≠ 0 := fun h0 => h (List.length_eq_zero.mp h0)
  omega

/-- Big-endian 32-bit word from four bytes of `block` starting at `j`. -/
def wordAt (block : List ℕ) (j : ℕ) : ℕ :=
  (block.getD j 0 % 256) * 2 ^ 24 + (block.getD (j+1) 0 % 256) * 2 ^ 16 +
    (block.getD (j+2) 0 % 256) * 2 ^ 8 + block.getD (j+3) 0 % 256

/-- Extend the 16 block words to the 64-entry message schedule. -/
def sha256schedule (ws : List ℕ) : List ℕ :=
  (List.range 48).foldl
    (fun acc _ =>
      let t := acc.length
      acc ++ [(ssig1 (acc.getD (t-2) 0) + acc.getD (t-7) 0 +
        ssig0 (acc.getD (t-15) 0) + acc.getD (t-16) 0) % 2 ^ 32])
    ws

/-- One SHA-256 compression round. -/
def sha256round (st : Sha256State) (kw : ℕ × ℕ) : Sha256State :=
  let t1 := (st.h7 + bsig1 st.h4 + sha256ch st.h4 st.h5 st.h6 + kw.1 + kw.2) % 2 ^ 32
  let t2 := (bsig0 st.h0 + sha256maj st.h0 st.h1 st.h2) % 2 ^ 32
  ⟨(t1 + t2) % 2 ^ 32, st.h0, st.h1, st.h2, (st.h3 + t1) % 2 ^ 32,
    st.h4, st.h5, st.h6⟩

/-- Compress one 64-byte block into the running state. -/
def sha256compress (st : Sha256State) (block : List ℕ) : Sha256State :=
  let ws := sha256schedule ((List.range 16).map (fun i => wordAt block (4 * i)))
  let f := (sha256K.zip ws).foldl sha256round st
  ⟨(st.h0 + f.h0) % 2 ^ 32, (st.h1 + f.h1) % 2 ^ 32, (st.h2 + f.h2) % 2 ^ 32,
   (st.h3 + f.h3) % 2 ^ 32, (st.h4 + f.h4) % 2 ^ 32, (st.h5 + f.h5) % 2 ^ 32,
   (st.h6 + f.h6) % 2 ^ 32, (st.h7 + f.h7) % 2 ^ 32⟩

/-- SHA-256 of a byte sequence, as the final eight-word state. -/
def sha256words (msg : List ℕ) : Sha256State :=
  (chunks64 (sha256pad msg)).foldl sha256compress sha256init

/-- Lowercase hexadecimal digit for `n < 16`. -/
def hexDigit (n : ℕ) : Char := "0123456789abcdef".data.getD n '0'

/-- Eight-character lowercase hexadecimal rendering of a 32-bit word. -/
def toHex32 (w : ℕ) : List Char :=
  (List.range 8).map (fun i => hexDigit ((w >>> (4 * (7 - i))) % 16))

/-- `hashlib.sha256(msg).hexdigest()`: 64 lowercase hex characters. -/
def sha256hex (msg : List ℕ) : List Char :=
  let st := sha256words msg
  toHex32 st.h0 ++ toHex32 st.h1 ++ toHex32 st.h2 ++ toHex32 st.h3 ++
    toHex32 st.h4 ++ toHex32 st.h5 ++ toHex32 st.h6 ++ toHex32 st.h7

/-! ## Caching layer (`app/cache.py`) -/

/-- The backing Redis client as seen through the calls `RedisCache` makes
(`redis-py` operations `get`, `setex`, `scan_iter` + `delete`).  Each call
may fail with a transport error, modelled by `Except String`. -/
structure RedisClient where
  get : String → Except String (Option String)
  setex : String → ℕ → String → Except String Unit
  scanIter : String → Except String (List String)
  del : List String → Except String ℕ

/-- `RedisCache` state (`app/cache.py` lines 18-49): the TTL and the
connection, which is `None` when the backing store was unreachable at
startup. -/
structure RedisCache where
  ttl : ℕ
  client : Option RedisClient

/-- `RedisCache._compute_hash` (`app/cache.py` lines 61-72):
`hashlib.sha256(audio_data).hexdigest()`. -/
def RedisCache.computeHash (audio_data : List ℕ) : String :=
  ⟨sha256hex audio_data⟩

/-- The key `RedisCache.set` derives and passes to the store
(`app/cache.py` lines 123-132): `f"transcription:{cache_key}"` where
`cache_key = _compute_hash(audio_data)`.  The stored `result` is a second
argument to `set` but does not enter the key. -/
def RedisCache.setKey (audio_data : List ℕ) (_result : String) : String :=
  "transcription:" ++ RedisCache.computeHash audio_data

/-- `RedisCache.get` (`app/cache.py` lines 74-106).  The cached payload is
modelled as the serialized string; `None` is returned when the client is
absent, on a miss, and on a caught transport error. -/
def RedisCache.get (c : RedisCache) (audio_data : List ℕ) : Option String :=
  match c.client with
  | none => none
  | some client =>
    match client.get ("transcription:" ++ RedisCache.computeHash audio_data) with
    | Except.ok (some cached) => some cached
    | Except.ok none => none
    | Except.error _ => none

/-- `RedisCache.set` (`app/cache.py` lines 108-143): `False` when the client
is absent and on a caught transport error, `True` on success. -/
def RedisCache.set (c : RedisCache) (audio_data : List ℕ) (result : String) : Bool :=
  match c.client with
  | none => false
  | some client =>
    match client.setex (RedisCache.setKey audio_data result) c.ttl result with
    | Except.ok _ => true
    | Except.error _ => false

/-- `RedisCache.clear` (`app/cache.py` lines 145-167): `0` when the client is
absent, when no keys match, and on a caught transport error. -/
def RedisCache.clear (c : RedisCache) : ℕ :=
  match c.client with
  | none => 0
  | some client =>
    match client.scanIter "transcription:*" with
    | Except.error _ => 0
    | Except.ok keys =>
      if keys = [] then 0
      else match client.del keys with
        | Except.ok n => n
        | Except.error _ => 0

/-- `NoOpCache.get` (`app/cache.py` lines 176-178): always a miss. -/
def NoOpCache.get (_audio_data : List ℕ) : Option String := none

/-- `NoOpCache.set` (`app/cache.py` lines 180-182): always reports failure. -/
def NoOpCache.set (_audio_data : List ℕ) (_result : String) : Bool := false

/-- `NoOpCache.clear` (`app/cache.py` lines 184-186): always zero. -/
def NoOpCache.clear : ℕ := 0

/-- No two adjacent whitespace characters (used to state that collapsed
whitespace stays collapsed). -/
def noTwoSpaces (l : List Char) : Prop :=
  List.Chain' (fun a b => ¬(isPySpace a = true ∧ isPySpace b = true)) l

/-! ## Helper lemmas -/

/-- `Char.ofNat` round-trips on valid codepoints. -/
theorem charToNat_ofNat {n : ℕ} (h : n.isValidChar) : (Char.ofNat n).toNat = n := by
  simp [Char.ofNat, h, Char.ofNatAux, Char.toNat, UInt32.toNat, BitVec.toNat_ofNatLt]

/-- A string whose character list is nonempty is not the empty string. -/
theorem str_ne_empty_of_data_ne_nil {s : String} (h : s.data ≠ []) : s ≠ "" :=
  fun he => h (by rw [he])

/-- Appending to the right cannot empty a nonempty string. -/
theorem append_ne_empty_left (a b : String) (h : a.data ≠ []) : a ++ b ≠ "" := by
  intro hh
  rw [String.ext_iff, String.data_append] at hh
  exact h (List.append_eq_nil.mp hh).1

/-- `containsSub` decides list infixhood. -/
theorem containsSub_iff_isInfix {p l : List Char} : containsSub p l = true ↔ p <:+: l := by
  simp only [containsSub, List.any_eq_true, List.mem_tails]
  constructor
  · rintro ⟨t, ht, hp⟩
    exact List.infix_iff_prefix_suffix.mpr ⟨t, List.isPrefixOf_iff_prefix.mp hp, ht⟩
  · intro hinf
    obtain ⟨t, hp, ht⟩ := List.infix_iff_prefix_suffix.mp hinf
    exact ⟨t, ht, List.isPrefixOf_iff_prefix.mpr hp⟩

/-- Every 32-bit hex rendering has eight characters. -/
theorem toHex32_length (w : ℕ) : (toHex32 w).length = 8 := by
  simp [toHex32]

/-- The SHA-256 hex digest always has 64 characters. -/
theorem sha256hex_length (msg : List ℕ) : (sha256hex msg).length = 64 := by
  simp [sha256hex, toHex32_length]

/-- `hexDigit` only produces lowercase hexadecimal digit characters. -/
theorem hexDigit_mem (n : ℕ) : hexDigit n ∈ "0123456789abcdef".data := by
  unfold hexDigit
  rcases Nat.lt_or_ge n ("0123456789abcdef".data.length) with h | h
  · rw [List.getD_eq_getElem _ _ h]
    exact List.getElem_mem h
  · rw [List.getD_eq_default _ _ h]
    decide

/-- Every character of a SHA-256 hex digest is a hexadecimal digit. -/
theorem sha256hex_mem {c : Char} {msg : List ℕ} (hc : c ∈ sha256hex msg) :
    c ∈ "0123456789abcdef".data := by
  simp only [sha256hex, List.mem_append, toHex32, List.mem_map, List.mem_range] at hc
  rcases hc with ((((((⟨i, -, rfl⟩ | ⟨i, -, rfl⟩) | ⟨i, -, rfl⟩) | ⟨i, -, rfl⟩) |
    ⟨i, -, rfl⟩) | ⟨i, -, rfl⟩) | ⟨i, -, rfl⟩) | ⟨i, -, rfl⟩ <;>
    exact hexDigit_mem _

/-! ## Claim theorems -/

set_option maxRecDepth 8192

/-- C4: For every blank or whitespace-only transcript, regardless of segments
and audio duration, the classifier returns `(false, "")` — an empty
transcript is never classified as a hallucination. -/
theorem blank_transcript_never_hallucination (t : String)
    (segments : List Segment) (d : ℚ) (h : ∀ c ∈ t.data, isPySpace c = true) :
    is_hallucination t segments d = (false, "") := by
  have hs : pyStrip t.data = [] := by
    unfold pyStrip stripL stripR
    rw [List.dropWhile_eq_nil_iff.mpr h]
    rfl
  unfold is_hallucination
  rw [if_pos (Or.inr hs)]

/-- Witness for C4 at the whitespace-only transcript `" \t "`. -/
theorem blank_transcript_never_hallucination_witness :
    is_hallucination " \t " [] 5 = (false, "") :=
  blank_transcript_never_hallucination " \t " [] 5 (by decide)

/-- C5: When caching is disabled (`NoOpCache`) or the backing store is
unreachable (`RedisCache` with no client), lookup returns `none`, store
returns `false`, and clear returns `0`, for every input; all three are total
functions, so no exception reaches the caller. -/
theorem cache_unavailable_inert (c : RedisCache) (h : c.client = none)
    (audio : List ℕ) (result : String) :
    RedisCache.get c audio = none ∧ RedisCache.set c audio result = false ∧
    RedisCache.clear c = 0 ∧ NoOpCache.get audio = none ∧
    NoOpCache.set audio result = false ∧ NoOpCache.clear = 0 := by
  refine ⟨?_, ?_, ?_, rfl, rfl, rfl⟩ <;>
    simp [RedisCache.get, RedisCache.set, RedisCache.clear, h]

/-- Witness for C5 at a concrete disconnected cache. -/
theorem cache_unavailable_inert_witness :
    RedisCache.get ⟨3600, none⟩ [0, 1, 2] = none ∧
    RedisCache.set ⟨3600, none⟩ [0, 1, 2] "r" = false ∧
    RedisCache.clear ⟨3600, none⟩ = 0 :=
  ⟨(cache_unavailable_inert ⟨3600, none⟩ rfl [0, 1, 2] "r").1,
   (cache_unavailable_inert ⟨3600, none⟩ rfl [0, 1, 2] "r").2.1,
   (cache_unavailable_inert ⟨3600, none⟩ rfl [0, 1, 2] "r").2.2.1⟩

/-- C6 counterexample: for the transcript `"thanks for watching"` with
duration 2.0 s and no segments, the classifier does flag a hallucination,
but the reason string is `"exact_match: 'thanks for watching'"` (with a
space and quotes), not `"exact_match:thanks for watching"` as claimed. -/
theorem exact_match_reason_spelling :
    (is_hallucination "thanks for watching" [] 2).1 = true ∧
    (is_hallucination "thanks for watching" [] 2).2 ≠
      "exact_match:thanks for watching" := by decide

/-- C6 (amended): for the transcript `"thanks for watching"` with duration
2.0 s and no segments, the classifier returns `is_hallucination = true` with
reason `"exact_match: 'thanks for watching'"`. -/
theorem exact_match_thanks_for_watching :
    is_hallucination "thanks for watching" [] 2 =
      (true, "exact_match: 'thanks for watching'") := by decide

/-- C7: the cache key is a deterministic function of the raw audio bytes
alone: equal byte sequences give equal keys, the stored result does not
enter the key, and the key is the namespace prefix `"transcription:"`
followed by the 64-character (256-bit) lowercase-hex SHA-256 digest of the
bytes. -/
theorem cache_key_content_addressed (b1 b2 : List ℕ) (r1 r2 : String)
    (h : b1 = b2) :
    RedisCache.setKey b1 r1 = RedisCache.setKey b2 r2 ∧
    RedisCache.setKey b1 r1 = "transcription:" ++ RedisCache.computeHash b1 ∧
    (RedisCache.computeHash b1).length = 64 ∧
    ∀ c ∈ (RedisCache.computeHash b1).data, c ∈ "0123456789abcdef".data := by
  subst h
  refine ⟨rfl, rfl, ?_, ?_⟩
  · show (sha256hex b1).length = 64
    exact sha256hex_length b1
  · intro c hc
    exact sha256hex_mem hc

/-- Witness for C7 at a concrete byte sequence. -/
theorem cache_key_content_addressed_witness :
    RedisCache.setKey [0, 1, 2] "r1" = RedisCache.setKey [0, 1, 2] "r2" ∧
    (RedisCache.computeHash [0, 1, 2]).length = 64 :=
  ⟨(cache_key_content_addressed [0, 1, 2] [0, 1, 2] "r1" "r2" rfl).1,
   (cache_key_content_addressed [0, 1, 2] [0, 1, 2] "r1" "r2" rfl).2.2.1⟩

/-- C1 counterexample: for the transcript `"hello hello hello hello"` (no
segments, duration 2.0 s) the classifier does return `true`, but the reason
is `"high_compression_ratio: ..."`, which does not contain
`"repeated_phrase"`: the compression-ratio rule precedes the repeated-phrase
rule in the strict evaluation order and matches first (ratio 4/1 = 4.0 > 3). -/
theorem hello_repetition_counterexample :
    (is_hallucination "hello hello hello hello" [] 2).1 = true ∧
    (is_hallucination "hello hello hello hello" [] 2).2 =
      "high_compression_ratio: 4.00 (4 words, 1 unique)" ∧
    containsSub "repeated_phrase".data
      (is_hallucination "hello hello hello hello" [] 2).2.data = false := by
  with_unfolding_all decide

/-- C1 (amended): for the transcript `"hello hello hello hello"` the
classifier returns `is_hallucination = true` for every segment list and
every audio duration; with no segments the first matching rule is the
compression-ratio rule, so the reason contains `"high_compression_ratio"`
rather than `"repeated_phrase"`. -/
theorem hello_repetition_flagged_via_compression (segments : List Segment)
    (d : ℚ) :
    (is_hallucination "hello hello hello hello" segments d).1 = true ∧
    is_hallucination "hello hello hello hello" [] d =
      (true, "high_compression_ratio: 4.00 (4 words, 1 unique)") := by
  constructor
  · unfold is_hallucination
    rw [if_neg (by decide), if_neg (by decide),
      show (HALLUCINATION_SUBSTRINGS.find? fun p =>
        containsSub p.data (normalizeText "hello hello hello hello").data) = none
      from by decide]
    simp only []
    split_ifs with h1 h2 h3 h4 h5 h6 <;>
      first
        | rfl
        | exact absurd (by with_unfolding_all decide) h4
  · unfold is_hallucination
    rw [if_neg (by decide), if_neg (by decide),
      show (HALLUCINATION_SUBSTRINGS.find? fun p =>
        containsSub p.data (normalizeText "hello hello hello hello").data) = none
      from by decide]
    simp only []
    rw [if_neg (by simp), if_neg (by simp),
      if_neg (fun hc => absurd hc.2 (by decide)),
      if_pos (by with_unfolding_all decide)]
    with_unfolding_all decide

/-- If `pre ++ p ++ suf = m` then `p` occurs as a substring of `m`. -/
theorem containsSub_of_split {p m : List Char} (pre suf : List Char)
    (h : pre ++ p ++ suf = m) : containsSub p m = true :=
  containsSub_iff_isInfix.mpr ⟨pre, suf, h⟩

/-- C3: the duration validation of `preprocess_audio` fails if and only if
the final duration `numSamples / sampleRate` is strictly below the
configured minimum or strictly above the configured maximum; exactly the
minimum (or maximum) passes, one sample fewer (or more) fails, and the
error message cites `"too short"` / `"too long"` and interpolates the
measured duration and the violated bound. -/
theorem duration_validation_boundaries (minDur maxDur : ℚ) (n sr : ℕ)
    (hsr : 0 < sr) (hmm : minDur ≤ maxDur) :
    (validateDuration minDur maxDur n sr = Except.ok () ↔
      ¬((n : ℚ) / sr < minDur ∨ maxDur < (n : ℚ) / sr)) ∧
    ((n : ℚ) / sr < minDur →
      validateDuration minDur maxDur n sr = Except.error
        ("Audio too short: " ++ fmtFixed ((n : ℚ) / sr) 2 ++ "s < minimum "
          ++ fmtFixed minDur 2 ++ "s") ∧
      containsSub "too short".data
        ("Audio too short: " ++ fmtFixed ((n : ℚ) / sr) 2 ++ "s < minimum "
          ++ fmtFixed minDur 2 ++ "s").data = true) ∧
    (maxDur < (n : ℚ) / sr →
      validateDuration minDur maxDur n sr = Except.error
        ("Audio too long: " ++ fmtFixed ((n : ℚ) / sr) 2 ++ "s > maximum "
          ++ fmtFixed maxDur 2 ++ "s") ∧
      containsSub "too long".data
        ("Audio too long: " ++ fmtFixed ((n : ℚ) / sr) 2 ++ "s > maximum "
          ++ fmtFixed maxDur 2 ++ "s").data = true) ∧
    ((n : ℚ) / sr = minDur → validateDuration minDur maxDur n sr = Except.ok ()) ∧
    (0 < n → (n : ℚ) / sr = minDur →
      validateDuration minDur maxDur (n - 1) sr = Except.error
        ("Audio too short: " ++ fmtFixed (((n - 1 : ℕ) : ℚ) / sr) 2
          ++ "s < minimum " ++ fmtFixed minDur 2 ++ "s")) ∧
    ((n : ℚ) / sr = maxDur → validateDuration minDur maxDur n sr = Except.ok ()) ∧
    ((n : ℚ) / sr = maxDur →
      validateDuration minDur maxDur (n + 1) sr = Except.error
        ("Audio too long: " ++ fmtFixed (((n + 1 : ℕ) : ℚ) / sr) 2
          ++ "s > maximum " ++ fmtFixed maxDur 2 ++ "s")) := by
  have hsrq : (0 : ℚ) < (sr : ℚ) := by exact_mod_cast hsr
  refine ⟨?_, ?_, ?_, ?_, ?_, ?_, ?_⟩
  · unfold validateDuration
    simp only []
    split_ifs with h1 h2 <;> simp_all
  · intro h
    constructor
    · unfold validateDuration
      simp only []
      rw [if_pos h]
    · apply containsSub_of_split "Audio ".data
        (": ".data ++ (fmtFixed ((n : ℚ) / sr) 2).data ++ "s < minimum ".data
          ++ (fmtFixed minDur 2).data ++ "s".data)
      have h1 : ("Audio ".data ++ ("too short".data ++ ": ".data) : List Char) =
          "Audio too short: ".data := by decide
      simp only [String.data_append, List.append_assoc]
      rw [← List.append_assoc "too short".data ": ".data, ← List.append_assoc, h1]
  · intro h
    have hns : ¬((n : ℚ) / sr < minDur) := not_lt.mpr (hmm.trans h.le)
    constructor
    · unfold validateDuration
      simp only []
      rw [if_neg hns, if_pos h]
    · apply containsSub_of_split "Audio ".data
        (": ".data ++ (fmtFixed ((n : ℚ) / sr) 2).data ++ "s > maximum ".data
          ++ (fmtFixed maxDur 2).data ++ "s".data)
      have h1 : ("Audio ".data ++ ("too long".data ++ ": ".data) : List Char) =
          "Audio too long: ".data := by decide
      simp only [String.data_append, List.append_assoc]
      rw [← List.append_assoc "too long".data ": ".data, ← List.append_assoc, h1]
  · intro h
    unfold validateDuration
    simp only []
    rw [if_neg (by rw [h]; exact lt_irrefl _), if_neg (by rw [h]; exact not_lt.mpr hmm)]
  · intro hn h
    have hlt : ((n - 1 : ℕ) : ℚ) / sr < minDur := by
      rw [← h]
      exact (div_lt_div_iff_of_pos_right hsrq).mpr
        (by exact_mod_cast Nat.sub_lt hn one_pos)
    unfold validateDuration
    simp only []
    rw [if_pos hlt]
  · intro h
    unfold validateDuration
    simp only []
    rw [if_neg (by rw [h]; exact not_lt.mpr hmm), if_neg (by rw [h]; exact lt_irrefl _)]
  · intro h
    have hlt : maxDur < ((n + 1 : ℕ) : ℚ) / sr := by
      rw [← h]
      exact (div_lt_div_iff_of_pos_right hsrq).mpr (by exact_mod_cast Nat.lt_succ_self n)
    have hns : ¬(((n + 1 : ℕ) : ℚ) / sr < minDur) := not_lt.mpr (hmm.trans hlt.le)
    unfold validateDuration
    simp only []
    rw [if_neg hns, if_pos hlt]

/-- Witness for C3 with the default configuration bounds (0.1 s, 30 s) and
a 16 kHz signal: 1600 samples (exactly 0.1 s) pass, 1599 samples fail. -/
theorem duration_validation_boundaries_witness :
    validateDuration (1/10) 30 1600 16000 = Except.ok () ∧
    validateDuration (1/10) 30 (1600 - 1) 16000 = Except.error
      ("Audio too short: " ++ fmtFixed (((1600 - 1 : ℕ) : ℚ) / 16000) 2
        ++ "s < minimum " ++ fmtFixed (1/10) 2 ++ "s") :=
  ⟨(duration_validation_boundaries (1/10) 30 1600 16000 (by decide)
      (by with_unfolding_all decide)).2.2.2.1 (by with_unfolding_all decide),
   (duration_validation_boundaries (1/10) 30 1600 16000 (by decide)
      (by with_unfolding_all decide)).2.2.2.2.1 (by decide)
      (by with_unfolding_all decide)⟩

/-- Every frame examined by the VAD loop has exactly `FRAME_SIZE` samples,
so no frame is empty. -/
theorem vadFrames_mem_ne_nil {audio : List ℤ} {f : List ℤ}
    (hf : f ∈ vadFrames audio) : f ≠ [] := by
  unfold vadFrames pyRangeStep at hf
  simp only [List.mem_map, List.mem_range] at hf
  obtain ⟨i, ⟨k, hk, rfl⟩, rfl⟩ := hf
  have h480 : ((audio.length - FRAME_SIZE) + FRAME_SIZE - 1) / FRAME_SIZE * FRAME_SIZE
      ≤ (audio.length - FRAME_SIZE) + FRAME_SIZE - 1 := Nat.div_mul_le_self _ _
  have hklt : (k + 1) * FRAME_SIZE ≤ audio.length - FRAME_SIZE + FRAME_SIZE - 1 := by
    calc (k + 1) * FRAME_SIZE
        ≤ ((audio.length - FRAME_SIZE) + FRAME_SIZE - 1) / FRAME_SIZE * FRAME_SIZE :=
          Nat.mul_le_mul_right _ hk
      _ ≤ _ := h480
  have hfs : FRAME_SIZE = 480 := rfl
  rw [hfs] at hklt
  have hlen : k * FRAME_SIZE < audio.length := by rw [hfs]; omega
  intro hnil
  rw [List.take_eq_nil_iff] at hnil
  rcases hnil with h | h
  · exact absurd h (by decide)
  · rw [List.drop_eq_nil_iff] at h
    omega

/-- C8: if the voice-activity detector classifies zero frames as voiced, the
gating stage passes the full original signal through unchanged, and for a
nonempty input signal the stage never emits an empty signal. -/
theorem vad_gating_noop_and_nonempty (is_speech : List ℤ → Bool)
    (audio : List ℤ) :
    ((∀ f ∈ vadFrames audio, is_speech f = false) →
      vadFilter is_speech audio = audio) ∧
    (audio ≠ [] → vadFilter is_speech audio ≠ []) := by
  constructor
  · intro h
    unfold vadFilter
    rw [List.filter_eq_nil_iff.mpr (fun f hf => by simp [h f hf])]
    simp
  · intro ha
    unfold vadFilter
    simp only []
    split_ifs with hv
    · intro hfl
      rw [List.flatten_eq_nil_iff] at hfl
      obtain ⟨f, hf⟩ := List.exists_mem_of_ne_nil _ hv
      exact vadFrames_mem_ne_nil (List.mem_of_mem_filter hf) (hfl f hf)
    · exact ha

/-- Witness for C8 with a classifier that voices nothing. -/
theorem vad_gating_noop_and_nonempty_witness :
    vadFilter (fun _ => false) [1, 2, 3] = [1, 2, 3] ∧
    vadFilter (fun _ => false) [1, 2, 3] ≠ [] :=
  ⟨(vad_gating_noop_and_nonempty (fun _ => false) [1, 2, 3]).1 (fun _ _ => rfl),
   (vad_gating_noop_and_nonempty (fun _ => false) [1, 2, 3]).2 (by decide)⟩

/-- C2: whenever the classifier flags a hallucination, the orchestrator
blanks the transcript, marks every segment with
`filtered_as_hallucination = True`, keeps the segment count, and leaves
every other segment field (timing, text, confidence probabilities)
unchanged. -/
theorem hallucination_suppression (t : String) (segs : List Segment) (d : ℚ)
    (h : (is_hallucination t segs d).1 = true) :
    (buildResult t segs d).transcript = "" ∧
    (buildResult t segs d).segments.length = segs.length ∧
    (∀ (i : ℕ) (s s' : Segment), segs[i]? = some s →
      (buildResult t segs d).segments[i]? = some s' →
      s'.start = s.start ∧ s'.«end» = s.«end» ∧ s'.text = s.text ∧
      s'.confidence = s.confidence ∧ s'.no_speech_prob = s.no_speech_prob ∧
      s'.avg_logprob = s.avg_logprob ∧
      s'.filtered_as_hallucination = some true) := by
  have hb : buildResult t segs d =
      { transcript := ""
        segments := segs.map (fun s => { s with filtered_as_hallucination := some true })
        audio_duration := d
        hallucination_filtered := true
        hallucination_reason := some (is_hallucination t segs d).2 } := by
    unfold buildResult
    simp only [h, if_true]
  rw [hb]
  refine ⟨rfl, by simp, ?_⟩
  intro i s s' hs hs'
  simp only [List.getElem?_map, hs, Option.map_some'] at hs'
  cases hs'
  exact ⟨rfl, rfl, rfl, rfl, rfl, rfl, rfl⟩

/-- Witness for C2 at a flagged transcript with one segment. -/
theorem hallucination_suppression_witness :
    (is_hallucination "thanks for watching"
      [⟨0, 2, "thanks for watching", some (-3/10), some (1/2), some (-3/10), none⟩]
      2).1 = true ∧
    (buildResult "thanks for watching"
      [⟨0, 2, "thanks for watching", some (-3/10), some (1/2), some (-3/10), none⟩]
      2).transcript = "" :=
  ⟨by with_unfolding_all decide,
   (hallucination_suppression "thanks for watching"
      [⟨0, 2, "thanks for watching", some (-3/10), some (1/2), some (-3/10), none⟩]
      2 (by with_unfolding_all decide)).1⟩

/-- Appending to the right preserves a nonempty character list. -/
theorem data_append_ne_nil (s t : String) (h : s.data ≠ []) : (s ++ t).data ≠ [] := by
  rw [String.data_append]
  intro hh
  exact h (List.append_eq_nil.mp hh).1

/-- The classifier either reports `(false, "")` or reports `true` with a
nonempty reason: every positive rule attaches a reason with a nonempty
literal prefix. -/
theorem is_hallucination_shape (t : String) (segs : List Segment) (d : ℚ) :
    is_hallucination t segs d = (false, "") ∨
    ((is_hallucination t segs d).1 = true ∧ (is_hallucination t segs d).2 ≠ "") := by
  unfold is_hallucination
  split
  · exact Or.inl rfl
  · lift_lets
    extract_lets normalized
    split
    · exact Or.inr ⟨rfl, str_ne_empty_of_data_ne_nil
        (by (repeat apply data_append_ne_nil); decide)⟩
    · split
      · exact Or.inr ⟨rfl, str_ne_empty_of_data_ne_nil
          (by (repeat apply data_append_ne_nil); decide)⟩
      · intros
        split_ifs <;>
          first
            | exact Or.inl rfl
            | exact Or.inr ⟨rfl, str_ne_empty_of_data_ne_nil
                (by (repeat apply data_append_ne_nil); decide)⟩

/-- C10: the classifier returns a nonempty reason exactly when it returns
`true`, and the transcription result carries a `hallucination_reason` field
exactly when `hallucination_filtered` is set. -/
theorem reason_nonempty_iff_flagged (t : String) (segs : List Segment) (d : ℚ) :
    ((is_hallucination t segs d).2 ≠ "" ↔ (is_hallucination t segs d).1 = true) ∧
    ((buildResult t segs d).hallucination_reason.isSome = true ↔
      (buildResult t segs d).hallucination_filtered = true) := by
  constructor
  · rcases is_hallucination_shape t segs d with h | ⟨h1, h2⟩
    · rw [h]
      simp
    · simp [h1, h2]
  · cases hb : (is_hallucination t segs d).1 <;> simp [buildResult, hb]

/-- ASCII lowering is idempotent. -/
theorem pyLower_idem (c : Char) : pyLower (pyLower c) = pyLower c := by
  unfold pyLower
  by_cases h : 65 ≤ c.toNat ∧ c.toNat ≤ 90
  · rw [if_pos h]
    have hv : (c.toNat + 32).isValidChar := Or.inl (by omega)
    rw [if_neg]
    rw [charToNat_ofNat hv]
    omega
  · rw [if_neg h, if_neg h]

/-- Characters of a collapsed list come from the input or are `' '`. -/
theorem mem_collapseAux {c : Char} : ∀ (l : List Char) (b : Bool),
    c ∈ collapseAux b l → c ∈ l ∨ c = ' '
  | [], _, h => by simp [collapseAux] at h
  | a :: rest, b, h => by
    unfold collapseAux at h
    split_ifs at h with h1 h2
    · rcases mem_collapseAux rest true h with hm | hm
      · exact Or.inl (List.mem_cons_of_mem _ hm)
      · exact Or.inr hm
    · rcases List.mem_cons.mp h with rfl | hm
      · exact Or.inr rfl
      · rcases mem_collapseAux rest true hm with hm' | hm'
        · exact Or.inl (List.mem_cons_of_mem _ hm')
        · exact Or.inr hm'
    · rcases List.mem_cons.mp h with rfl | hm
      · exact Or.inl (List.mem_cons_self _ _)
      · rcases mem_collapseAux rest false hm with hm' | hm'
        · exact Or.inl (List.mem_cons_of_mem _ hm')
        · exact Or.inr hm'

/-- Every whitespace character of a collapsed list is `' '`. -/
theorem spacesNormal_collapseAux {c : Char} : ∀ (l : List Char) (b : Bool),
    c ∈ collapseAux b l → isPySpace c = true → c = ' '
  | [], _, h, _ => by simp [collapseAux] at h
  | a :: rest, b, h, hsp => by
    unfold collapseAux at h
    split_ifs at h with h1 h2
    · exact spacesNormal_collapseAux rest true h hsp
    · rcases List.mem_cons.mp h with rfl | hm
      · rfl
      · exact spacesNormal_collapseAux rest true hm hsp
    · rcases List.mem_cons.mp h with rfl | hm
      · exact absurd hsp (by simp [h1])
      · exact spacesNormal_collapseAux rest false hm hsp

/-- A collapsed list has no two adjacent whitespace characters, and after a
run was just collapsed the next emitted character is not whitespace. -/
theorem collapseAux_noRun : ∀ l : List Char,
    noTwoSpaces (collapseAux false l) ∧ noTwoSpaces (collapseAux true l) ∧
    (∀ c, (collapseAux true l).head? = some c → isPySpace c = false)
  | [] => by
    refine ⟨List.chain'_nil, List.chain'_nil, ?_⟩
    intro c h
    simp [collapseAux] at h
  | a :: rest => by
    obtain ⟨ihf, iht, ihh⟩ := collapseAux_noRun rest
    by_cases h1 : isPySpace a = true
    · have e1 : collapseAux false (a :: rest) = ' ' :: collapseAux true rest := by
        simp [collapseAux, h1]
      have e2 : collapseAux true (a :: rest) = collapseAux true rest := by
        simp [collapseAux, h1]
      refine ⟨?_, ?_, ?_⟩
      · rw [e1, noTwoSpaces, List.chain'_cons']
        refine ⟨?_, iht⟩
        intro y hy
        have hys := ihh y (Option.mem_def.mp hy)
        intro hcon
        simp [hys] at hcon
      · rw [e2]
        exact iht
      · rw [e2]
        exact ihh
    · have e1 : collapseAux false (a :: rest) = a :: collapseAux false rest := by
        simp [collapseAux, h1]
      have e2 : collapseAux true (a :: rest) = a :: collapseAux false rest := by
        simp [collapseAux, h1]
      have hc : noTwoSpaces (a :: collapseAux false rest) := by
        rw [noTwoSpaces, List.chain'_cons']
        refine ⟨?_, ihf⟩
        intro y _ hcon
        exact h1 hcon.1
      refine ⟨by rw [e1]; exact hc, by rw [e2]; exact hc, ?_⟩
      intro c hcs
      rw [e2] at hcs
      cases hcs
      cases hb : isPySpace a
      · rfl
      · exact absurd hb h1

/-- Collapsing is the identity on lists whose spaces are single `' '`
characters not adjacent to each other. -/
theorem collapseAux_eq_self : ∀ (l : List Char) (b : Bool),
    (∀ c ∈ l, isPySpace c = true → c = ' ') → noTwoSpaces l →
    (b = true → ∀ c, l.head? = some c → isPySpace c = false) →
    collapseAux b l = l
  | [], _, _, _, _ => rfl
  | a :: rest, b, hsp, hrun, hb => by
    by_cases h1 : isPySpace a = true
    · have hb' : b = false := by
        cases b
        · rfl
        · exact absurd h1 (by simp [hb rfl a rfl])
      subst hb'
      have ha : a = ' ' := hsp a (List.mem_cons_self _ _) h1
      have e1 : collapseAux false (a :: rest) = ' ' :: collapseAux true rest := by
        simp [collapseAux, h1]
      rw [e1, ← ha]
      congr 1
      apply collapseAux_eq_self rest true
        (fun c hc => hsp c (List.mem_cons_of_mem _ hc))
        ((List.chain'_cons'.mp hrun).2)
      intro _ c hc
      have := (List.chain'_cons'.mp hrun).1 c (Option.mem_def.mpr hc)
      cases hcs : isPySpace c
      · rfl
      · exact absurd ⟨h1, hcs⟩ this
    · have e1 : collapseAux b (a :: rest) = a :: collapseAux false rest := by
        cases b <;> simp [collapseAux, h1]
      rw [e1]
      congr 1
      exact collapseAux_eq_self rest false
        (fun c hc => hsp c (List.mem_cons_of_mem _ hc))
        ((List.chain'_cons'.mp hrun).2)
        (by intro h; exact absurd h (by simp))

/-- The head surviving `dropWhile p` fails `p`. -/
theorem head?_dropWhile_not {p : Char → Bool} :
    ∀ {l : List Char} {c : Char}, (l.dropWhile p).head? = some c → p c = false
  | [], c, h => by simp at h
  | a :: rest, c, h => by
    rw [List.dropWhile_cons] at h
    split_ifs at h with h1
    · exact head?_dropWhile_not h
    · injection h with h2
      subst h2
      cases hb : p a
      · rfl
      · exact absurd hb h1

/-- Left-stripping yields a suffix. -/
theorem stripL_suffix (l : List Char) : stripL l <:+ l := List.dropWhile_suffix _

/-- Right-stripping yields a prefix. -/
theorem stripR_isPrefix (l : List Char) : stripR l <+: l := by
  unfold stripR
  obtain ⟨t, ht⟩ :=
    (List.dropWhile_suffix isPySpace : l.reverse.dropWhile isPySpace <:+ l.reverse)
  exact ⟨t.reverse, by rw [← List.reverse_append, ht, List.reverse_reverse]⟩

/-- Stripping yields a contiguous sublist. -/
theorem pyStrip_isInfix (l : List Char) : pyStrip l <:+: l :=
  (stripR_isPrefix (stripL l)).isInfix.trans (stripL_suffix l).isInfix

/-- Stripping yields a sublist. -/
theorem pyStrip_sublist (l : List Char) : List.Sublist (pyStrip l) l :=
  (pyStrip_isInfix l).sublist

/-- A nonempty prefix has the same head. -/
theorem prefix_head? {l₁ l₂ : List Char} (h : l₁ <+: l₂) {c : Char}
    (hc : l₁.head? = some c) : l₂.head? = some c := by
  obtain ⟨t, rfl⟩ := h
  cases l₁
  · simp at hc
  · simpa using hc

/-- A stripped list does not start with whitespace. -/
theorem pyStrip_head {l : List Char} {c : Char}
    (h : (pyStrip l).head? = some c) : isPySpace c = false :=
  head?_dropWhile_not (prefix_head? (stripR_isPrefix (stripL l)) h)

/-- A stripped list does not end with whitespace. -/
theorem pyStrip_last {l : List Char} {c : Char}
    (h : (pyStrip l).getLast? = some c) : isPySpace c = false := by
  unfold pyStrip stripR at h
  rw [List.getLast?_reverse] at h
  exact head?_dropWhile_not h

/-- Left-stripping is the identity when the head is not whitespace. -/
theorem stripL_eq_self {l : List Char}
    (h : ∀ c, l.head? = some c → isPySpace c = false) : stripL l = l := by
  cases l with
  | nil => rfl
  | cons a rest =>
    unfold stripL
    rw [List.dropWhile_cons, if_neg]
    simp [h a rfl]

/-- Right-stripping is the identity when the last character is not
whitespace. -/
theorem stripR_eq_self {l : List Char}
    (h : ∀ c, l.getLast? = some c → isPySpace c = false) : stripR l = l := by
  unfold stripR
  have h2 : ∀ c, l.reverse.head? = some c → isPySpace c = false := by
    intro c hc
    rw [List.head?_reverse] at hc
    exact h c hc
  rw [show l.reverse.dropWhile isPySpace = l.reverse from stripL_eq_self h2]
  exact List.reverse_reverse l

/-- Stripping is the identity when neither end is whitespace. -/
theorem pyStrip_eq_self {l : List Char}
    (hh : ∀ c, l.head? = some c → isPySpace c = false)
    (hl : ∀ c, l.getLast? = some c → isPySpace c = false) : pyStrip l = l := by
  unfold pyStrip
  rw [show stripL l = l from stripL_eq_self hh]
  exact stripR_eq_self hl

/-- Stripping preserves the absence of adjacent whitespace. -/
theorem noTwoSpaces_pyStrip {l : List Char} (h : noTwoSpaces l) :
    noTwoSpaces (pyStrip l) :=
  List.Chain'.infix h (pyStrip_isInfix l)

/-- Mapping `pyLower` is the identity on already-lowered lists. -/
theorem map_pyLower_eq_self {l : List Char} (h : ∀ c ∈ l, pyLower c = c) :
    l.map pyLower = l := by
  exact (List.map_congr_left h).trans (List.map_id' l)

/-- `_normalize_text` is idempotent at the character-list level. -/
theorem normalizeList_idem (l : List Char) :
    normalizeList (normalizeList l) = normalizeList l := by
  set m : List Char := collapseWs ((pyStrip (l.map pyLower)).filter keepChar) with hm
  have hn : normalizeList l = pyStrip m := rfl
  have hA : ∀ c ∈ pyStrip m, pyLower c = c := by
    intro c hc
    have hcm : c ∈ collapseAux false ((pyStrip (l.map pyLower)).filter keepChar) :=
      (pyStrip_sublist m).subset hc
    rcases mem_collapseAux _ false hcm with hmem | hceq
    · obtain ⟨a, -, rfl⟩ := List.mem_map.mp
        ((pyStrip_sublist _).subset (List.mem_of_mem_filter hmem))
      exact pyLower_idem a
    · rw [hceq]
      decide
  have hB : ∀ c ∈ pyStrip m, keepChar c = true := by
    intro c hc
    have hcm : c ∈ collapseAux false ((pyStrip (l.map pyLower)).filter keepChar) :=
      (pyStrip_sublist m).subset hc
    rcases mem_collapseAux _ false hcm with hmem | hceq
    · exact List.of_mem_filter hmem
    · rw [hceq]
      decide
  have hC : ∀ c ∈ pyStrip m, isPySpace c = true → c = ' ' := by
    intro c hc
    have hcm : c ∈ collapseAux false ((pyStrip (l.map pyLower)).filter keepChar) :=
      (pyStrip_sublist m).subset hc
    exact spacesNormal_collapseAux _ false hcm
  have hD : noTwoSpaces (pyStrip m) := noTwoSpaces_pyStrip (collapseAux_noRun _).1
  have hE : ∀ c, (pyStrip m).head? = some c → isPySpace c = false :=
    fun _ hc => pyStrip_head hc
  have hF : ∀ c, (pyStrip m).getLast? = some c → isPySpace c = false :=
    fun _ hc => pyStrip_last hc
  rw [hn]
  show pyStrip (collapseWs ((pyStrip ((pyStrip m).map pyLower)).filter keepChar))
      = pyStrip m
  rw [map_pyLower_eq_self hA, pyStrip_eq_self hE hF, List.filter_eq_self.mpr hB,
    show collapseWs (pyStrip m) = pyStrip m from
      collapseAux_eq_self _ false hC hD (fun h => absurd h (by simp))]
  exact pyStrip_eq_self hE hF

/-- C9: the classifier's text normalization is idempotent: for every string
`t`, `normalize(normalize(t)) = normalize(t)`. -/
theorem normalize_idempotent (t : String) :
    normalizeText (normalizeText t) = normalizeText t :=
  congrArg String.mk (normalizeList_idem t.data)
